import Mathlib

/-!
Verification of the paperscissorsfun measurement / transform / layout
library (`psflib.js`, final revision).

Shallow embedding conventions:
* JavaScript numbers are modelled as rationals (`ℚ`).  IEEE-754 artefacts
  (NaN, infinities, rounding) are outside the model; the one place the
  source can manufacture a NaN — `Number(numToken)` on a degenerate token
  such as `"+"` — is modelled as a rejection, and is marked below.
* `throw new Error(...)` is modelled as `Except.error` with the message.
* Dynamically-typed arguments are modelled by the inductive `MSpec`
  (number / string / list / boolean / undefined / Measurement), mirroring
  the value categories the source actually distinguishes.
-/

namespace PSF

/-- Is an `Except` an `ok` result? -/
def exOk {α : Type} : Except String α → Bool
  | Except.ok _ => true
  | Except.error _ => false

/-- Is an `Except` an error? -/

def exErr {α : Type} : Except String α → Bool
  | Except.ok _ => false
  | Except.error _ => true

/-!  ==== Character classes of the tokenizer regexes ====

The source tokenizer (`Measurement._tokenize`) uses three regexes,
each of the form `^[class]+`:
  number: `[0123456789.+-]`, units: `[a-zμA-ZÅ'"-]`, whitespace: `\s`.
-/

/-- Characters matched by the number regex `[0123456789.+-]`. -/
def isNumChar (c : Char) : Bool :=
  c.isDigit || c = '.' || c = '+' || c = '-'

/-- Characters matched by the units regex, `[a-zμA-ZÅ'"-]` in the source. -/

def isUnitChar (c : Char) : Bool :=
  ('a' ≤ c && c ≤ 'z') || c = 'μ' || ('A' ≤ c && c ≤ 'Z') || c = 'Å' ||
  c = '\'' || c = '"' || c = '-'

/-- JavaScript whitespace (`\s` and the `ToNumber` trim set).  The exotic
Unicode space characters beyond NBSP and the BOM are omitted from the
model. -/

def jsWs (c : Char) : Bool :=
  c = ' ' || c = '\t' || c = '\n' || c = '\r' || c = '\x0b' || c = '\x0c' ||
  c = '\xa0' || c = '\ufeff'

/-!  ==== JavaScript string-to-number conversion (`ToNumber`) ====

Used for the loose `spec == 0` comparison in the constructor and for
`Number(numToken)` in `_parse`.  Only the decimal-literal grammar is
modelled (with optional sign, fraction and exponent); hex/binary/octal
literals and `Infinity` convert to `none` (treated like NaN) here, which
only affects which error message a malformed spec produces. -/

/-- Accumulate a digit string into a natural number. -/

def digitsToNat (cs : List Char) : Nat :=
  cs.foldl (fun n c => 10 * n + (c.toNat - 48)) 0

/-- Parse an optional exponent part (`e`/`E`, optional sign, digits)
that must consume the whole remainder; `none` models NaN. -/

def jsExponent (base : ℚ) : List Char → Option ℚ
  | [] => some base
  | c :: rest =>
    if c = 'e' || c = 'E' then
      let (sgn, ds) :=
        match rest with
        | '+' :: r => (1, r)
        | '-' :: r => (-1, r)
        | r => ((1 : Int), r)
      if ds ≠ [] && ds.all Char.isDigit then
        if sgn = 1 then some (base * 10 ^ digitsToNat ds)
        else some (base / 10 ^ digitsToNat ds)
      else none
    else none

/-- Parse an unsigned JS decimal literal (digits, optional `.` and
fraction digits, optional exponent); `none` models NaN. -/

def jsDecimal (cs : List Char) : Option ℚ :=
  let intPart := cs.takeWhile Char.isDigit
  let rest := cs.dropWhile Char.isDigit
  match rest with
  | [] => if intPart = [] then none else some (digitsToNat intPart)
  | r :: rest2 =>
    if r = '.' then
      let fracPart := rest2.takeWhile Char.isDigit
      let rest3 := rest2.dropWhile Char.isDigit
      if intPart = [] && fracPart = [] then none
      else jsExponent
        ((digitsToNat intPart : ℚ) +
          (digitsToNat fracPart : ℚ) / 10 ^ fracPart.length)
        rest3
    else if intPart = [] then none
    else jsExponent (digitsToNat intPart) (r :: rest2)

/-- Parse a signed JS decimal literal; `none` models NaN. -/

def jsSignedDecimal : List Char → Option ℚ
  | [] => jsDecimal []
  | c :: r =>
    if c = '+' then jsDecimal r
    else if c = '-' then (jsDecimal r).map Neg.neg
    else jsDecimal (c :: r)

/-- Strip leading and trailing JS whitespace. -/

def trimWs (cs : List Char) : List Char :=
  ((((cs.dropWhile jsWs).reverse).dropWhile jsWs)).reverse

/-- JavaScript `ToNumber` on a string: trim, empty string is `0`,
otherwise the numeric literal grammar; `none` models NaN. -/

def jsToNumber (s : String) : Option ℚ :=
  let t := trimWs s.data
  if t = [] then some 0 else jsSignedDecimal t

/-!  ==== Measurement._tokenize ====

Maximal-munch scan: at each position try the number regex, then the
units regex, then whitespace (whitespace runs are skipped, not emitted);
a character matching none of them raises the parse error. -/

/-- The tokenizer of `Measurement._tokenize`, on a character list.
The `while` loop is modelled with an explicit iteration budget; each
iteration consumes at least one character, so a budget equal to the
input length always suffices (`Measurement.tokenize` supplies it, and
the fuel arm is unreachable — see `tokenizeFuel_fuel_irrelevant`). -/

def tokenizeFuel : Nat → List Char → Except String (List String)
  | _, [] => Except.ok []
  | 0, _ :: _ => Except.error "out of fuel"
  | fuel + 1, c :: cs =>
    if isNumChar c then
      match tokenizeFuel fuel (cs.dropWhile isNumChar) with
      | Except.error e => Except.error e
      | Except.ok rest =>
          Except.ok (String.mk (c :: cs.takeWhile isNumChar) :: rest)
    else if isUnitChar c then
      match tokenizeFuel fuel (cs.dropWhile isUnitChar) with
      | Except.error e => Except.error e
      | Except.ok rest =>
          Except.ok (String.mk (c :: cs.takeWhile isUnitChar) :: rest)
    else if jsWs c then
      tokenizeFuel fuel (cs.dropWhile jsWs)
    else
      Except.error "Measurement.constructor: unexpected character"

/-- The tokenizer run with the always-sufficient budget. -/
def tokenizeAll (l : List Char) : Except String (List String) :=
  tokenizeFuel l.length l

def _INCH : ℚ := 0.0254

def _FOOT : ℚ := 12 * _INCH

def _YARD : ℚ := 3 * _FOOT

def _PT : ℚ := _INCH / 72

def _PICA : ℚ := _INCH / 6

def _BARLEYCORN : ℚ := _INCH / 3

def _CHAIN : ℚ := 22 * _YARD

def _FURLONG : ℚ := 10 * _CHAIN

def _ROD : ℚ := 0.25 * _CHAIN

def _LINK : ℚ := 0.01 * _CHAIN

def _CUBIT : ℚ := 18 * _INCH

def _FATHOM : ℚ := 6 * _FOOT

def _MILE : ℚ := 5280 * _FOOT

def _LEAGUE : ℚ := 5280 * _YARD

def _AU : ℚ := 1.49597870700e+11

def _PARSEC : ℚ := 30856775814913673

def _LY : ℚ := 9460730472580.8

/-- The irregular-name unit table `_UNIT_TABLE` (first lookup path). -/

def _UNIT_TABLE : List (String × ℚ) :=
  [ ("fermi", 1e-15), ("fermis", 1e-15),
    ("angstrom", 1e-10), ("angstroms", 1e-10), ("A", 1e-10), ("Å", 1e-10),
    ("micron", 1e-6), ("microns", 1e-6),
    ("thou", _INCH / 1000), ("mil", _INCH / 1000), ("mils", _INCH / 1000),
    ("point", _PT), ("points", _PT),
    ("pica", _PICA), ("picas", _PICA),
    ("inch", _INCH), ("inches", _INCH), ("in", _INCH),
    (String.singleton '"', _INCH),
    ("foot", _FOOT), ("feet", _FOOT), ("ft", _FOOT),
    (String.singleton '\'', _FOOT),
    ("yard", _YARD), ("yards", _YARD), ("yd", _YARD),
    ("barleycorn", _BARLEYCORN), ("barleycorns", _BARLEYCORN),
    ("furlong", _FURLONG), ("furlongs", _FURLONG),
    ("chain", _CHAIN), ("chains", _CHAIN),
    ("rod", _ROD), ("rods", _ROD),
    ("link", _LINK), ("links", _LINK),
    ("cubit", _CUBIT), ("cubits", _CUBIT),
    ("fathom", _FATHOM), ("fathoms", _FATHOM),
    ("mile", _MILE), ("miles", _MILE), ("mi", _MILE),
    ("league", _LEAGUE), ("leagues", _LEAGUE),
    ("astronomical-unit", _AU), ("au", _AU),
    ("parsec", _PARSEC), ("parsecs", _PARSEC), ("pc", _PARSEC),
    ("kiloparsec", 1000 * _PARSEC), ("kiloparsecs", 1000 * _PARSEC),
    ("kpc", 1000 * _PARSEC),
    ("megaparsec", 1e6 * _PARSEC), ("megaparsecs", 1e6 * _PARSEC),
    ("Mpc", 1e6 * _PARSEC),
    ("light-year", _LY), ("light-years", _LY), ("ly", _LY), ("lyr", _LY) ]

/-- Short SI prefixes (`_SHORT_PREFIX_TABLE`), keyed without the `m`. -/

def shortPrefixTable : List (String × ℚ) :=
  [ ("Q", 1e30), ("R", 1e27), ("Y", 1e24), ("Z", 1e21), ("E", 1e18),
    ("P", 1e15), ("T", 1e12), ("G", 1e9), ("M", 1e6), ("k", 1e3),
    ("h", 1e2), ("da", 1e1), ("", 1e0), ("d", 1e-1), ("c", 1e-2),
    ("m", 1e-3), ("u", 1e-6), ("μ", 1e-6), ("n", 1e-9), ("p", 1e-12),
    ("f", 1e-15), ("a", 1e-18), ("z", 1e-21), ("y", 1e-24),
    ("r", 1e-27), ("q", 1e-30) ]

/-- Long SI prefixes (`_LONG_PREFIX_TABLE`). -/

def longPrefixTable : List (String × ℚ) :=
  [ ("quetta", 1e30), ("ronna", 1e27), ("yotta", 1e24), ("zetta", 1e21),
    ("exa", 1e18), ("peta", 1e15), ("tera", 1e12), ("giga", 1e9),
    ("mega", 1e6), ("kilo", 1e3), ("hecto", 1e2), ("deca", 1e1),
    ("", 1e0), ("deci", 1e-1), ("centi", 1e-2), ("milli", 1e-3),
    ("micro", 1e-6), ("nano", 1e-9), ("pico", 1e-12), ("femto", 1e-15),
    ("atto", 1e-18), ("zepto", 1e-21), ("yocto", 1e-24), ("ronto", 1e-27),
    ("quecto", 1e-30) ]

/-- Key lookup in an association list (models `hasOwnProperty` + index). -/

def tableLookup (table : List (String × ℚ)) (name : String) : Option ℚ :=
  (table.find? (fun p => p.1 = name)).map Prod.snd

/-- Does this remainder match the rest of the regex `met(er|re)s?$`? -/

def isMetSuffix (t : String) : Bool :=
  t = "meter" || t = "metre" || t = "meters" || t = "metres"

/-- Index of the leftmost match of `met(er|re)s?$` in `name`
(`String.match` returns the leftmost match; with the `$` anchor the
match runs to the end of the string). -/

def metSuffixIndex (name : String) : Option Nat :=
  (List.range (name.length + 1)).find? (fun i => isMetSuffix (name.drop i))

/-- `ConversionFactors.unit`: irregular table first, then the short
`...m` SI path, otherwise the long-form `met(er|re)s?` path. -/

def ConversionFactors.unit (name : String) : Except String ℚ :=
  match tableLookup _UNIT_TABLE name with
  | some v => Except.ok v
  | none =>
    if name.takeRight 1 = "m" then
      match tableLookup shortPrefixTable (name.dropRight 1) with
      | some v => Except.ok v
      | none => Except.error "invalid measurement unit"
    else
      match metSuffixIndex name with
      | some i =>
        match tableLookup longPrefixTable (name.take i) with
        | some v => Except.ok v
        | none => Except.error "invalid measurement unit"
      | none => Except.error "invalid measurement unit"

/-!  ==== Measurement ====  -/

/-- The two reference frames. -/

inductive Frame : Type
  | world
  | printed
deriving DecidableEq, Repr

/-- A `Measurement`: a reference frame plus the canonical value
(meters), the `_referenceFrame` / `_value` fields of the source. -/

structure Measurement : Type where
  referenceFrame : Frame
  value : ℚ
deriving DecidableEq, Repr

/-- One element of a list spec (JS array entries are numbers or
strings in the accepted inputs). -/

inductive SpecItem : Type
  | num (q : ℚ)
  | str (s : String)
deriving DecidableEq, Repr

/-- The dynamically-typed `spec` argument of the `Measurement`
constructor and of the coercion points of the library. -/

inductive MSpec : Type
  | num (q : ℚ)
  | str (s : String)
  | list (l : List SpecItem)
  | bool (b : Bool)
  | undef
  | meas (m : Measurement)
deriving DecidableEq, Repr

/-- Is the spec an existing `Measurement` (JS `instanceof Measurement`)? -/

def MSpec.isMeas : MSpec → Bool
  | MSpec.meas _ => true
  | _ => false

/-- JS rendering of a number when an array is converted to a string.
Integers render as their digits; for a non-integral rational the JS
decimal rendering is abbreviated here — all the zero test below needs
is that a nonzero number never renders as a numeral equal to zero,
which any rendering containing a nonzero numeral satisfies. -/

def jsNumToString (q : ℚ) : String :=
  if q.den = 1 then toString q.num
  else toString q.num ++ "/" ++ toString q.den

/-- One array element as rendered by `Array.prototype.join`. -/

def jsItemString : SpecItem → String
  | SpecItem.num q => jsNumToString q
  | SpecItem.str s => s

/-- The JS loose comparison `spec == 0` on each spec category:
numbers compare directly, strings and arrays go through `ToNumber`
(arrays via their joined string form), booleans convert to 0/1, and
`undefined == 0` is false.  A `Measurement` object converts via its
`toString` (never numeric), and the constructor tests `instanceof`
first anyway. -/

def looseEqZero : MSpec → Bool
  | MSpec.num q => q = 0
  | MSpec.str s => jsToNumber s = some 0
  | MSpec.list l =>
      jsToNumber (String.intercalate "," (l.map jsItemString)) = some 0
  | MSpec.bool b => !b
  | MSpec.undef => false
  | MSpec.meas _ => false

/-- `Measurement._handleZero`: only the strict literals `0` and `"0"`
are accepted; every other loosely-zero spec is rejected. -/

def Measurement.handleZero (frame : Frame) (spec : MSpec) :
    Except String Measurement :=
  if spec = MSpec.num 0 ∨ spec = MSpec.str "0" then
    Except.ok ⟨frame, 0⟩
  else
    Except.error "Measurement.constructor: invalid empty arg"

/-- The number token of a (number, unit) pair in `Measurement._parse`:
a number passes through; a string must fully match the number regex and
is then converted with `Number(...)`.  A token whose conversion is NaN
in JS (e.g. `"+"`) is rejected here: NaN is outside the rational
model. -/

def parseNumToken : SpecItem → Except String ℚ
  | SpecItem.num q => Except.ok q
  | SpecItem.str s =>
    if s.data ≠ [] && s.data.all isNumChar then
      match jsToNumber s with
      | some q => Except.ok q
      | none => Except.error "Measurement.constructor: number token is NaN"
    else
      Except.error "Measurement.constructor: invalid number token"

/-- The unit token of a pair in `Measurement._parse`: must be a string
fully matching the units regex (a number here raises a TypeError in JS,
`unitToken.match` not being a function), then looked up. -/

def parseUnitToken : SpecItem → Except String ℚ
  | SpecItem.num _ => Except.error "TypeError: unitToken.match is not a function"
  | SpecItem.str s =>
    if s.data ≠ [] && s.data.all isUnitChar then
      ConversionFactors.unit s
    else
      Except.error "Measurement.constructor: invalid unit token"

/-- The summing loop of `Measurement._parse`. -/

def parseLoop : ℚ → List SpecItem → Except String ℚ
  | acc, [] => Except.ok acc
  | _, [_] => Except.error "Measurement.constructor: odd number of tokens"
  | acc, n :: u :: rest => do
    let num ← parseNumToken n
    let factor ← parseUnitToken u
    parseLoop (acc + num * factor) rest

/-- `Measurement._parse`: reject an odd token count, then sum the
(number, unit) pairs. -/

def Measurement.parseTokens (tokens : List SpecItem) : Except String ℚ :=
  if tokens.length % 2 ≠ 0 then
    Except.error "Measurement.constructor: odd number of tokens"
  else
    parseLoop 0 tokens

/-- `Measurement._tokenize` on a string. -/

def Measurement.tokenize (s : String) : Except String (List String) :=
  tokenizeFuel s.data.length s.data

/-- The `Measurement` constructor: clone an existing `Measurement`
(frame-checked), handle the privileged zero literal, tokenize a string
and fall through to list parsing, parse a list, and reject everything
else. -/

def Measurement.make (frame : Frame) (spec : MSpec) :
    Except String Measurement :=
  match spec with
  | MSpec.meas m =>
    if frame ≠ m.referenceFrame then
      Except.error "Measurement.constructor: invalid attempt to clone across referenceFrames"
    else
      Except.ok ⟨frame, m.value⟩
  | _ =>
    if looseEqZero spec then
      Measurement.handleZero frame spec
    else
      match spec with
      | MSpec.str s => do
        let toks ← Measurement.tokenize s
        let v ← Measurement.parseTokens (toks.map SpecItem.str)
        Except.ok ⟨frame, v⟩
      | MSpec.list l => do
        let v ← Measurement.parseTokens l
        Except.ok ⟨frame, v⟩
      | _ => Except.error "Measurement.constructor: invalid spec"

/-- `worldM`: an existing WORLD `Measurement` passes through, anything
else goes through the constructor with the WORLD frame. -/

def worldM (spec : MSpec) : Except String Measurement :=
  match spec with
  | MSpec.meas m =>
    if m.referenceFrame = Frame.world then Except.ok m
    else Measurement.make Frame.world spec
  | _ => Measurement.make Frame.world spec

/-- `printedM`: an existing PRINTED `Measurement` passes through,
anything else goes through the constructor with the PRINTED frame. -/

def printedM (spec : MSpec) : Except String Measurement :=
  match spec with
  | MSpec.meas m =>
    if m.referenceFrame = Frame.printed then Except.ok m
    else Measurement.make Frame.printed spec
  | _ => Measurement.make Frame.printed spec

/-- `Measurement._checkCompatible`: a `Measurement` operand must be in
the same reference frame; any other operand is coerced through the
constructor with this measurement's frame. -/

def Measurement.checkCompatible (self : Measurement) (opName : String)
    (rhs : MSpec) : Except String Measurement :=
  match rhs with
  | MSpec.meas m =>
    if self.referenceFrame ≠ m.referenceFrame then
      Except.error ("Measurement." ++ opName ++
        ": arithmetic not allowed between different referenceFrames")
    else
      Except.ok m
  | _ => Measurement.make self.referenceFrame rhs

/-- `Measurement.plus`. -/

def Measurement.plus (self : Measurement) (addend : MSpec) :
    Except String Measurement := do
  let a ← self.checkCompatible "plus" addend
  Except.ok ⟨self.referenceFrame, self.value + a.value⟩

/-- `Measurement.minus`. -/

def Measurement.minus (self : Measurement) (subtrahend : MSpec) :
    Except String Measurement := do
  let s ← self.checkCompatible "minus" subtrahend
  Except.ok ⟨self.referenceFrame, self.value - s.value⟩

/-- `Measurement.times`: only a bare number is a valid factor. -/

def Measurement.times (self : Measurement) (factor : MSpec) :
    Except String Measurement :=
  match factor with
  | MSpec.num f => Except.ok ⟨self.referenceFrame, self.value * f⟩
  | _ => Except.error "Measurement.times: factor must be a number"

/-- Result of `Measurement.dividedBy`: a scaled `Measurement` for a
bare-number divisor, a dimensionless ratio for a `Measurement`
divisor. -/

inductive DivResult : Type
  | meas (m : Measurement)
  | ratio (q : ℚ)
deriving DecidableEq, Repr

/-- `Measurement.dividedBy`. -/

def Measurement.dividedBy (self : Measurement) (divisor : MSpec) :
    Except String DivResult :=
  match divisor with
  | MSpec.num d =>
    if d = 0 then Except.error "Measurement.dividedBy: invalid division by zero"
    else Except.ok (DivResult.meas ⟨self.referenceFrame, self.value / d⟩)
  | _ => do
    let m ← self.checkCompatible "dividedBy" divisor
    if m.value = 0 then
      Except.error "Measurement.dividedBy: invalid division by zero"
    else
      Except.ok (DivResult.ratio (self.value / m.value))

/-!  ==== MeasurementPair ====  -/

/-- Pair kinds (`POINT`, `VECTOR`, `EXTENT`). -/

inductive PairKind : Type
  | point
  | vector
  | extent
deriving DecidableEq, Repr

/-- A `MeasurementPair`: the `_type`, `_x`, `_y` fields. -/

structure MeasurementPair : Type where
  type : PairKind
  x : Measurement
  y : Measurement
deriving DecidableEq, Repr

/-- `MeasurementPair.referenceFrame()` returns the x-coordinate's
frame. -/

def MeasurementPair.referenceFrame (p : MeasurementPair) : Frame :=
  p.x.referenceFrame

/-- The coordinate coercion of the `MeasurementPair` constructor:
`if (!(x instanceof Measurement)) x = worldM(x)`. -/

def coerceCoordinate : MSpec → Except String Measurement
  | MSpec.meas m => Except.ok m
  | w => worldM w

/-- The `MeasurementPair` constructor: coerce each coordinate that is
not already a `Measurement` through `worldM`, then require both
coordinates to be in the same reference frame. -/
def MeasurementPair.make (type : PairKind) (x y : MSpec) :
    Except String MeasurementPair := do
  let xm ← coerceCoordinate x
  let ym ← coerceCoordinate y
  if xm.referenceFrame ≠ ym.referenceFrame then
    Except.error "MeasurementPair.constructor: args must be same referenceFrame"
  else
    Except.ok ⟨type, xm, ym⟩

/-- The right-hand side accepted by `MeasurementPair.plus` / `minus`:
another pair, a JS array, or anything else (which is rejected). -/

inductive PairArg : Type
  | pair (p : MeasurementPair)
  | list (l : List MSpec)
  | other

/-- The kind-combination whitelist and result kinds for `plus`
(`allowed` = `['pointvector', 'vectorvector']` with its `resultType`
map). -/

def plusResultType : PairKind → PairKind → Option PairKind
  | PairKind.point, PairKind.vector => some PairKind.point
  | PairKind.vector, PairKind.vector => some PairKind.vector
  | _, _ => none

/-- The kind-combination whitelist and result kinds for `minus`. -/

def minusResultType : PairKind → PairKind → Option PairKind
  | PairKind.point, PairKind.point => some PairKind.vector
  | PairKind.point, PairKind.vector => some PairKind.point
  | PairKind.vector, PairKind.vector => some PairKind.vector
  | _, _ => none

/-- `MeasurementPair._checkCompatible`: build a pair from an array
right-hand side (element 0/1, missing elements being `undefined`),
reject a non-pair, enforce the kind whitelist, then require matching
reference frames; returns the right-hand pair and the result kind. -/

def MeasurementPair.checkCompatible (self : MeasurementPair)
    (rhs : PairArg) (resultType : PairKind → PairKind → Option PairKind) :
    Except String (MeasurementPair × PairKind) := do
  let r ← match rhs with
    | PairArg.list l => do
      let xm ← Measurement.make self.referenceFrame
        ((l.get? 0).getD MSpec.undef)
      let ym ← Measurement.make self.referenceFrame
        ((l.get? 1).getD MSpec.undef)
      MeasurementPair.make self.type (MSpec.meas xm) (MSpec.meas ym)
    | PairArg.pair p => Except.ok p
    | PairArg.other =>
      Except.error "MeasurementPair.plus/minus: rhs must be a MeasurementPair"
  match resultType self.type r.type with
  | none =>
    Except.error "Measurement: arithmetic not allowed between pair types"
  | some rt =>
    if self.referenceFrame ≠ r.referenceFrame then
      Except.error "Measurement: arithmetic not allowed between different referenceFrames"
    else
      Except.ok (r, rt)

/-- `MeasurementPair.plus`. -/

def MeasurementPair.plus (self : MeasurementPair) (addend : PairArg) :
    Except String MeasurementPair := do
  let (rhs, rt) ← self.checkCompatible addend plusResultType
  let x ← self.x.plus (MSpec.meas rhs.x)
  let y ← self.y.plus (MSpec.meas rhs.y)
  MeasurementPair.make rt (MSpec.meas x) (MSpec.meas y)

/-- `MeasurementPair.minus`. -/

def MeasurementPair.minus (self : MeasurementPair) (subtrahend : PairArg) :
    Except String MeasurementPair := do
  let (rhs, rt) ← self.checkCompatible subtrahend minusResultType
  let x ← self.x.minus (MSpec.meas rhs.x)
  let y ← self.y.minus (MSpec.meas rhs.y)
  MeasurementPair.make rt (MSpec.meas x) (MSpec.meas y)

/-!  ==== AffineTransformation ====  -/

/-- A 3×3 homogeneous matrix, entries row-major (`_matrix[i][j]` is
`mij`).  The constructor's shape check is enforced by the type. -/

structure AffineTransformation : Type where
  m00 : ℚ
  m01 : ℚ
  m02 : ℚ
  m10 : ℚ
  m11 : ℚ
  m12 : ℚ
  m20 : ℚ
  m21 : ℚ
  m22 : ℚ
deriving DecidableEq, Repr

/-- The last row of the matrix. -/

def AffineTransformation.lastRow (t : AffineTransformation) : ℚ × ℚ × ℚ :=
  (t.m20, t.m21, t.m22)

/-- `applyToPoint`: multiply the matrix by `[x, y, 1]ᵗ` (the source also
computes the third entry of the product, then discards it) and return
the first two entries as a new POINT tagged PRINTED. -/

def AffineTransformation.applyToPoint (t : AffineTransformation)
    (pt : MeasurementPair) : MeasurementPair :=
  let b0 := pt.x.value
  let b1 := pt.y.value
  let b2 : ℚ := 1
  let r0 := t.m00 * b0 + t.m01 * b1 + t.m02 * b2
  let r1 := t.m10 * b0 + t.m11 * b1 + t.m12 * b2
  ⟨PairKind.point, ⟨Frame.printed, r0⟩, ⟨Frame.printed, r1⟩⟩

/-- `compose`: the ordinary 3×3 matrix product
`this._matrix × other._matrix`, spelled out entrywise as in the
source. -/

def AffineTransformation.compose (a b : AffineTransformation) :
    AffineTransformation :=
  ⟨ a.m00 * b.m00 + a.m01 * b.m10 + a.m02 * b.m20,
    a.m00 * b.m01 + a.m01 * b.m11 + a.m02 * b.m21,
    a.m00 * b.m02 + a.m01 * b.m12 + a.m02 * b.m22,
    a.m10 * b.m00 + a.m11 * b.m10 + a.m12 * b.m20,
    a.m10 * b.m01 + a.m11 * b.m11 + a.m12 * b.m21,
    a.m10 * b.m02 + a.m11 * b.m12 + a.m12 * b.m22,
    a.m20 * b.m00 + a.m21 * b.m10 + a.m22 * b.m20,
    a.m20 * b.m01 + a.m21 * b.m11 + a.m22 * b.m21,
    a.m20 * b.m02 + a.m21 * b.m12 + a.m22 * b.m22 ⟩

/-- `Resize(factor)`: uniform scale about the origin. -/

def Resize (factor : ℚ) : AffineTransformation :=
  ⟨factor, 0, 0, 0, factor, 0, 0, 0, 1⟩

/-- `Identity()`. -/

def Identity : AffineTransformation :=
  ⟨1, 0, 0, 0, 1, 0, 0, 0, 1⟩

/-- `Translate(dx, dy)`: the offsets are coerced through `worldM` and
their bare values placed in the third column. -/

def Translate (dx dy : MSpec) : Except String AffineTransformation := do
  let dxm ← worldM dx
  let dym ← worldM dy
  Except.ok ⟨1, 0, dxm.value, 0, 1, dym.value, 0, 0, 1⟩

def ROT90 : ℚ := 90

def ROT180 : ℚ := 180

def ROT270 : ℚ := 270

/-- `Rotate(which)`: only 90, 180 and 270 are valid. -/

def Rotate (which : ℚ) : Except String AffineTransformation :=
  if which = ROT90 then
    Except.ok ⟨0, -1, 0, 1, 0, 0, 0, 0, 1⟩
  else if which = ROT180 then
    Except.ok ⟨-1, 0, 0, 0, -1, 0, 0, 0, 1⟩
  else if which = ROT270 then
    Except.ok ⟨0, 1, 0, -1, 0, 0, 0, 0, 1⟩
  else
    Except.error "invalid rotation"

/-- `ReflectAroundXAxis()`: flips the Y sign. -/

def ReflectAroundXAxis : AffineTransformation :=
  ⟨1, 0, 0, 0, -1, 0, 0, 0, 1⟩

/-!  ==== Kit.pack ====

The bin-packing routine is an external collaborator; `Kit.pack` hands
it whatever is not yet packed, turns the positioned records into one
`Page`, and loops on the unpositioned remainder, failing fatally when
an iteration positions nothing.  The packer is modelled as an opaque
function producing positioned records (placement x, y and the piece)
and unpositioned pieces. -/

/-- The record list returned by the external bin-packer:
`positioned` carries placement coordinates. -/

structure BinPackResult (α : Type) : Type where
  positioned : List (ℚ × ℚ × α)
  unpositioned : List α

/-- A `Page`: the ordered list of positioned pieces appended to it
(each with its placement coordinates, which the source stores on the
piece as a world-frame position point). -/

structure Page (α : Type) : Type where
  positionedPieceList : List (ℚ × ℚ × α)
deriving DecidableEq, Repr

/-- The packer partitions its input: every input piece comes back
exactly once, positioned or not. -/

def PackerPartitions {α : Type} (packer : List α → BinPackResult α) : Prop :=
  ∀ l, ((packer l).positioned).length + ((packer l).unpositioned).length
        = l.length

/-- The `Kit.pack` loop, with an explicit iteration budget (`fuel`).
Each iteration invokes the packer on all not-yet-packed pieces, fails
fatally if nothing was positioned, otherwise emits one `Page` with the
positioned pieces and loops on the unpositioned remainder. -/

def packFuel {α : Type} (packer : List α → BinPackResult α) :
    Nat → List α → Except String (List (Page α))
  | _, [] => Except.ok []
  | 0, _ :: _ => Except.error "out of fuel"
  | fuel + 1, p :: ps =>
    let bp := packer (p :: ps)
    if bp.positioned.isEmpty then
      Except.error "at least one piece is too big to fit on page"
    else
      (packFuel packer fuel bp.unpositioned).map
        (fun rest => Page.mk bp.positioned :: rest)

/-!  ==== Theorems ====  -/

@[simp] theorem exOk_ok {α : Type} (a : α) :
    exOk (Except.ok a) = true := rfl

@[simp] theorem exOk_error {α : Type} (e : String) :
    exOk (Except.error e : Except String α) = false := rfl

@[simp] theorem exErr_ok {α : Type} (a : α) :
    exErr (Except.ok a) = false := rfl

@[simp] theorem exErr_error {α : Type} (e : String) :
    exErr (Except.error e : Except String α) = true := rfl

@[simp] theorem bindE_ok {α β : Type} (a : α) (f : α → Except String β) :
    (Except.ok a >>= f) = f a := rfl

@[simp] theorem bindE_error {α β : Type} (e : String)
    (f : α → Except String β) :
    ((Except.error e : Except String α) >>= f) = Except.error e := rfl

@[simp] theorem mapE_ok {α β : Type} (a : α) (f : α → β) :
    (Except.ok a : Except String α).map f = Except.ok (f a) := rfl

@[simp] theorem mapE_error {α β : Type} (e : String) (f : α → β) :
    (Except.error e : Except String α).map f = Except.error e := rfl

/-- Any budget at least the input length gives the same scan result. -/
theorem tokenizeFuel_fuel_irrelevant :
    ∀ (bound : Nat) (l : List Char) (fuel₁ fuel₂ : Nat),
      l.length ≤ bound → l.length ≤ fuel₁ → l.length ≤ fuel₂ →
      tokenizeFuel fuel₁ l = tokenizeFuel fuel₂ l := by
  intro bound
  induction bound with
  | zero =>
    intro l fuel₁ fuel₂ hb _ _
    have : l = [] := List.length_eq_zero.mp (Nat.le_zero.mp hb)
    subst this
    cases fuel₁ <;> cases fuel₂ <;> rfl
  | succ n ih =>
    intro l fuel₁ fuel₂ hb h1 h2
    cases l with
    | nil => cases fuel₁ <;> cases fuel₂ <;> rfl
    | cons c cs =>
      cases fuel₁ with
      | zero => simp at h1
      | succ f₁ =>
        cases fuel₂ with
        | zero => simp at h2
        | succ f₂ =>
          have hcsb : cs.length ≤ n := by
            simpa [Nat.succ_le_succ_iff] using hb
          have hcs1 : cs.length ≤ f₁ := by
            simpa [Nat.succ_le_succ_iff] using h1
          have hcs2 : cs.length ≤ f₂ := by
            simpa [Nat.succ_le_succ_iff] using h2
          have hdrop : ∀ p : Char → Bool, (cs.dropWhile p).length ≤ cs.length :=
            fun p => (List.dropWhile_suffix p).length_le
          simp only [tokenizeFuel]
          rw [ih (cs.dropWhile isNumChar) f₁ f₂
                (le_trans (hdrop _) hcsb) (le_trans (hdrop _) hcs1)
                (le_trans (hdrop _) hcs2),
              ih (cs.dropWhile isUnitChar) f₁ f₂
                (le_trans (hdrop _) hcsb) (le_trans (hdrop _) hcs1)
                (le_trans (hdrop _) hcs2),
              ih (cs.dropWhile jsWs) f₁ f₂
                (le_trans (hdrop _) hcsb) (le_trans (hdrop _) hcs1)
                (le_trans (hdrop _) hcs2)]

theorem tokenizeFuel_cons (f : Nat) (c : Char) (cs : List Char) :
    tokenizeFuel (f + 1) (c :: cs) =
      if isNumChar c then
        match tokenizeFuel f (cs.dropWhile isNumChar) with
        | Except.error e => Except.error e
        | Except.ok rest =>
            Except.ok (String.mk (c :: cs.takeWhile isNumChar) :: rest)
      else if isUnitChar c then
        match tokenizeFuel f (cs.dropWhile isUnitChar) with
        | Except.error e => Except.error e
        | Except.ok rest =>
            Except.ok (String.mk (c :: cs.takeWhile isUnitChar) :: rest)
      else if jsWs c then
        tokenizeFuel f (cs.dropWhile jsWs)
      else
        Except.error "Measurement.constructor: unexpected character" := rfl

theorem jsWs_cases {c : Char} (h : jsWs c = true) :
    c = ' ' ∨ c = '\t' ∨ c = '\n' ∨ c = '\r' ∨ c = '\x0b' ∨ c = '\x0c' ∨
    c = '\xa0' ∨ c = '﻿' := by
  simpa [jsWs, or_assoc] using h

theorem jsWs_not_numChar {c : Char} (h : jsWs c = true) :
    isNumChar c = false := by
  rcases jsWs_cases h with h | h | h | h | h | h | h | h <;> subst h <;> decide

theorem jsWs_not_unitChar {c : Char} (h : jsWs c = true) :
    isUnitChar c = false := by
  rcases jsWs_cases h with h | h | h | h | h | h | h | h <;> subst h <;> decide

theorem jsWs_not_digit {c : Char} (h : jsWs c = true) :
    c.isDigit = false := by
  rcases jsWs_cases h with h | h | h | h | h | h | h | h <;> subst h <;> decide

theorem jsWs_not_special {c : Char} (h : jsWs c = true) :
    c ≠ '.' ∧ c ≠ 'e' ∧ c ≠ 'E' ∧ c ≠ '+' ∧ c ≠ '-' := by
  rcases jsWs_cases h with h | h | h | h | h | h | h | h <;> subst h <;> decide

theorem dropWhile_all_append (p : Char → Bool) :
    ∀ (t rest : List Char), (∀ c ∈ t, p c = true) →
      (t ++ rest).dropWhile p = rest.dropWhile p := by
  intro t
  induction t with
  | nil => intro rest _; rfl
  | cons c t' ih =>
    intro rest ht
    have hc : p c = true := ht c (by simp)
    simp only [List.cons_append, List.dropWhile_cons, hc, if_true]
    exact ih rest (fun x hx => ht x (by simp [hx]))

theorem takeWhile_all_append (p : Char → Bool) :
    ∀ (t rest : List Char), (∀ c ∈ t, p c = true) →
      (t ++ rest).takeWhile p = t ++ rest.takeWhile p := by
  intro t
  induction t with
  | nil => intro rest _; rfl
  | cons c t' ih =>
    intro rest ht
    have hc : p c = true := ht c (by simp)
    simp only [List.cons_append, List.takeWhile_cons, hc, if_true]
    rw [ih rest (fun x hx => ht x (by simp [hx]))]

theorem dropWhile_head_not (p : Char → Bool) (rest : List Char)
    (h : rest = [] ∨ p rest.headI = false) :
    rest.dropWhile p = rest := by
  cases rest with
  | nil => rfl
  | cons r rs =>
    rcases h with h | h
    · exact absurd h (by simp)
    · simp only [List.headI] at h
      simp [List.dropWhile_cons, h]

theorem takeWhile_head_not (p : Char → Bool) (rest : List Char)
    (h : rest = [] ∨ p rest.headI = false) :
    rest.takeWhile p = [] := by
  cases rest with
  | nil => rfl
  | cons r rs =>
    rcases h with h | h
    · exact absurd h (by simp)
    · simp only [List.headI] at h
      simp [List.takeWhile_cons, h]

/-- A whitespace run followed by a list whose head fails `p` (for a
`p` refuted by whitespace) again has a head failing `p`. -/

theorem ws_append_head_not (p : Char → Bool) (w X : List Char)
    (hw : ∀ c ∈ w, jsWs c = true)
    (hp : ∀ c, jsWs c = true → p c = false)
    (hX : X = [] ∨ p X.headI = false) :
    (w ++ X) = [] ∨ p (w ++ X).headI = false := by
  cases w with
  | nil => simpa using hX
  | cons c w' =>
    right
    simp only [List.cons_append, List.headI]
    exact hp c (hw c (by simp))

/-- A pure whitespace run is empty or has a head failing `p`. -/

theorem ws_list_head_not (p : Char → Bool) (w : List Char)
    (hw : ∀ c ∈ w, jsWs c = true)
    (hp : ∀ c, jsWs c = true → p c = false) :
    w = [] ∨ p w.headI = false := by
  cases w with
  | nil => exact Or.inl rfl
  | cons c w' =>
    right
    simp only [List.headI]
    exact hp c (hw c (by simp))

/-- Skipping a leading whitespace run does not change the token
stream. -/

theorem tokenizeAll_ws (w cs : List Char)
    (hw : ∀ c ∈ w, jsWs c = true)
    (hcs : cs = [] ∨ jsWs cs.headI = false) :
    tokenizeAll (w ++ cs) = tokenizeAll cs := by
  cases w with
  | nil => rfl
  | cons c w' =>
    have hc : jsWs c = true := hw c (by simp)
    have hw' : ∀ x ∈ w', jsWs x = true := fun x hx => hw x (by simp [hx])
    show tokenizeFuel ((c :: (w' ++ cs)).length) (c :: (w' ++ cs)) =
      tokenizeAll cs
    rw [List.length_cons, tokenizeFuel_cons,
      jsWs_not_numChar hc, jsWs_not_unitChar hc, hc]
    simp only [Bool.false_eq_true, if_false, if_true]
    rw [dropWhile_all_append jsWs w' cs hw', dropWhile_head_not jsWs cs hcs]
    exact tokenizeFuel_fuel_irrelevant (w' ++ cs).length cs
      (w' ++ cs).length cs.length (by simp) (by simp) le_rfl

/-- Consuming a maximal number-class run emits it as one token. -/

theorem tokenizeAll_run_num (t rest : List Char) (hne : t ≠ [])
    (ht : ∀ c ∈ t, isNumChar c = true)
    (hrest : rest = [] ∨ isNumChar rest.headI = false) :
    tokenizeAll (t ++ rest) =
      (tokenizeAll rest).map (fun toks => String.mk t :: toks) := by
  cases t with
  | nil => exact absurd rfl hne
  | cons c t' =>
    have hc : isNumChar c = true := ht c (by simp)
    have ht' : ∀ x ∈ t', isNumChar x = true := fun x hx => ht x (by simp [hx])
    show tokenizeFuel ((c :: (t' ++ rest)).length) (c :: (t' ++ rest)) = _
    rw [List.length_cons, tokenizeFuel_cons, hc]
    simp only [if_true]
    rw [dropWhile_all_append isNumChar t' rest ht',
      dropWhile_head_not isNumChar rest hrest,
      takeWhile_all_append isNumChar t' rest ht',
      takeWhile_head_not isNumChar rest hrest,
      tokenizeFuel_fuel_irrelevant (t' ++ rest).length rest
        (t' ++ rest).length rest.length (by simp) (by simp) le_rfl]
    rcases h' : tokenizeFuel rest.length rest with e | toks <;>
      simp [tokenizeAll, h']

/-- Consuming a maximal units-class run (whose head is not a
number-class character) emits it as one token. -/

theorem tokenizeAll_run_unit (t rest : List Char) (hne : t ≠ [])
    (ht : ∀ c ∈ t, isUnitChar c = true)
    (hhead : isNumChar t.headI = false)
    (hrest : rest = [] ∨ isUnitChar rest.headI = false) :
    tokenizeAll (t ++ rest) =
      (tokenizeAll rest).map (fun toks => String.mk t :: toks) := by
  cases t with
  | nil => exact absurd rfl hne
  | cons c t' =>
    have hc : isUnitChar c = true := ht c (by simp)
    have hcn : isNumChar c = false := by simpa [List.headI] using hhead
    have ht' : ∀ x ∈ t', isUnitChar x = true := fun x hx => ht x (by simp [hx])
    show tokenizeFuel ((c :: (t' ++ rest)).length) (c :: (t' ++ rest)) = _
    rw [List.length_cons, tokenizeFuel_cons, hcn, hc]
    simp only [Bool.false_eq_true, if_false, if_true]
    rw [dropWhile_all_append isUnitChar t' rest ht',
      dropWhile_head_not isUnitChar rest hrest,
      takeWhile_all_append isUnitChar t' rest ht',
      takeWhile_head_not isUnitChar rest hrest,
      tokenizeFuel_fuel_irrelevant (t' ++ rest).length rest
        (t' ++ rest).length rest.length (by simp) (by simp) le_rfl]
    rcases h' : tokenizeFuel rest.length rest with e | toks <;>
      simp [tokenizeAll, h']

/-!  ==== Conversion factors ====  -/

theorem coerceCoordinate_meas (m : Measurement) :
    coerceCoordinate (MSpec.meas m) = Except.ok m := rfl

/-- Claim C1: every transform produced by the named constructors
`Resize`, `Identity`, `Translate`, `Rotate` (for each valid argument
90, 180 and 270) and `ReflectAroundXAxis` has `[0,0,1]` as the last
row of its matrix, and the compose of any two transforms whose
matrices both have last row `[0,0,1]` again has last row `[0,0,1]`. -/
theorem C1_last_row_invariant :
    ∀ (factor : ℚ) (dx dy : MSpec)
      (t t90 t180 t270 a b : AffineTransformation),
    (Resize factor).lastRow = (0, 0, 1) ∧
    Identity.lastRow = (0, 0, 1) ∧
    (Translate dx dy = Except.ok t → t.lastRow = (0, 0, 1)) ∧
    (Rotate ROT90 = Except.ok t90 → t90.lastRow = (0, 0, 1)) ∧
    (Rotate ROT180 = Except.ok t180 → t180.lastRow = (0, 0, 1)) ∧
    (Rotate ROT270 = Except.ok t270 → t270.lastRow = (0, 0, 1)) ∧
    ReflectAroundXAxis.lastRow = (0, 0, 1) ∧
    (a.lastRow = (0, 0, 1) → b.lastRow = (0, 0, 1) →
      (a.compose b).lastRow = (0, 0, 1)) := by
  intro factor dx dy t t90 t180 t270 a b
  refine ⟨rfl, rfl, ?_, ?_, ?_, ?_, rfl, ?_⟩
  · intro h
    rcases hx : worldM dx with e | mx <;>
      rcases hy : worldM dy with e' | my <;>
      simp [Translate, hx, hy] at h
    all_goals simp [← h, AffineTransformation.lastRow]
  · intro h
    rw [show Rotate ROT90 =
        Except.ok (⟨0, -1, 0, 1, 0, 0, 0, 0, 1⟩ : AffineTransformation)
      from by with_unfolding_all rfl] at h
    simp at h
    simp [← h, AffineTransformation.lastRow]
  · intro h
    rw [show Rotate ROT180 =
        Except.ok (⟨-1, 0, 0, 0, -1, 0, 0, 0, 1⟩ : AffineTransformation)
      from by with_unfolding_all rfl] at h
    simp at h
    simp [← h, AffineTransformation.lastRow]
  · intro h
    rw [show Rotate ROT270 =
        Except.ok (⟨0, 1, 0, -1, 0, 0, 0, 0, 1⟩ : AffineTransformation)
      from by with_unfolding_all rfl] at h
    simp at h
    simp [← h, AffineTransformation.lastRow]
  · intro ha hb
    simp [AffineTransformation.lastRow, Prod.ext_iff] at ha hb ⊢
    simp [AffineTransformation.compose, ha.1, ha.2.1, ha.2.2,
      hb.1, hb.2.1, hb.2.2]

/-- Witness for C1 at concrete inputs. -/

theorem C1_last_row_invariant_witness :
    (Resize 2).lastRow = (0, 0, 1) ∧
    AffineTransformation.lastRow ⟨1, 0, 0, 0, 1, 0, 0, 0, 1⟩ = (0, 0, 1) ∧
    AffineTransformation.lastRow ⟨0, 1, 0, -1, 0, 0, 0, 0, 1⟩ = (0, 0, 1) ∧
    (Identity.compose (Resize 2)).lastRow = (0, 0, 1) := by
  have h := C1_last_row_invariant 2 (MSpec.num 0) (MSpec.num 0)
    ⟨1, 0, 0, 0, 1, 0, 0, 0, 1⟩ ⟨0, -1, 0, 1, 0, 0, 0, 0, 1⟩
    ⟨-1, 0, 0, 0, -1, 0, 0, 0, 1⟩ ⟨0, 1, 0, -1, 0, 0, 0, 0, 1⟩
    Identity (Resize 2)
  exact ⟨h.1, h.2.2.1 (by with_unfolding_all rfl),
    h.2.2.2.2.2.1 (by with_unfolding_all rfl),
    h.2.2.2.2.2.2.2 (by decide) (by decide)⟩

/-- Claim C3: for transforms whose matrices have last row `[0,0,1]`,
`A.compose(B).applyToPoint(p)` equals
`A.applyToPoint(B.applyToPoint(p))` — composition applies B first —
and `applyToPoint` returns a POINT tagged PRINTED. -/

theorem C3_compose_applies_rhs_first :
    ∀ (a b : AffineTransformation) (p : MeasurementPair),
      a.lastRow = (0, 0, 1) → b.lastRow = (0, 0, 1) →
      (a.compose b).applyToPoint p = a.applyToPoint (b.applyToPoint p) ∧
      (a.applyToPoint p).type = PairKind.point ∧
      (a.applyToPoint p).x.referenceFrame = Frame.printed ∧
      (a.applyToPoint p).y.referenceFrame = Frame.printed := by
  intro a b p _ hb
  simp [AffineTransformation.lastRow, Prod.ext_iff] at hb
  refine ⟨?_, rfl, rfl, rfl⟩
  simp [AffineTransformation.compose, AffineTransformation.applyToPoint,
    MeasurementPair.mk.injEq, Measurement.mk.injEq,
    hb.1, hb.2.1, hb.2.2]
  constructor <;> ring

/-- Witness for C3 at concrete inputs. -/

theorem C3_compose_applies_rhs_first_witness :
    (AffineTransformation.compose ⟨1, 2, 3, 4, 5, 6, 0, 0, 1⟩
        ⟨7, 8, 9, 1, 2, 3, 0, 0, 1⟩).applyToPoint
      ⟨PairKind.point, ⟨Frame.world, 3⟩, ⟨Frame.world, 5⟩⟩ =
    AffineTransformation.applyToPoint ⟨1, 2, 3, 4, 5, 6, 0, 0, 1⟩
      (AffineTransformation.applyToPoint ⟨7, 8, 9, 1, 2, 3, 0, 0, 1⟩
        ⟨PairKind.point, ⟨Frame.world, 3⟩, ⟨Frame.world, 5⟩⟩) :=
  (C3_compose_applies_rhs_first ⟨1, 2, 3, 4, 5, 6, 0, 0, 1⟩
    ⟨7, 8, 9, 1, 2, 3, 0, 0, 1⟩
    ⟨PairKind.point, ⟨Frame.world, 3⟩, ⟨Frame.world, 5⟩⟩
    (by decide) (by decide)).1

/-- Claim C8: `Rotate(90).applyToPoint` maps the point (3,5) to
(-5,3), and four successive applications restore any point's
coordinates. -/

theorem C8_rotate90_period_four :
    ∀ r, Rotate ROT90 = Except.ok r →
      r.applyToPoint ⟨PairKind.point, ⟨Frame.world, 3⟩, ⟨Frame.world, 5⟩⟩ =
        ⟨PairKind.point, ⟨Frame.printed, -5⟩, ⟨Frame.printed, 3⟩⟩ ∧
      ∀ p : MeasurementPair,
        (r.applyToPoint (r.applyToPoint (r.applyToPoint
          (r.applyToPoint p)))).x.value = p.x.value ∧
        (r.applyToPoint (r.applyToPoint (r.applyToPoint
          (r.applyToPoint p)))).y.value = p.y.value := by
  intro r h
  rw [show Rotate ROT90 =
      Except.ok (⟨0, -1, 0, 1, 0, 0, 0, 0, 1⟩ : AffineTransformation)
    from by with_unfolding_all rfl] at h
  simp at h
  subst h
  refine ⟨by with_unfolding_all rfl, ?_⟩
  intro p
  simp [AffineTransformation.applyToPoint]

/-- Every successful construction carries the requested frame. -/

theorem make_frame_eq :
    ∀ (f : Frame) (s : MSpec) (m : Measurement),
      Measurement.make f s = Except.ok m → m.referenceFrame = f := by
  intro f s m h
  cases s with
  | meas m' =>
    by_cases hf : f = m'.referenceFrame
    · simp [Measurement.make, hf] at h
      simp [← h, hf]
    · simp [Measurement.make, hf] at h
  | num q =>
    by_cases hq : q = 0
    · subst hq
      simp [Measurement.make, looseEqZero, Measurement.handleZero] at h
      simp [← h]
    · simp [Measurement.make, looseEqZero, hq] at h
  | str s' =>
    by_cases hl : looseEqZero (MSpec.str s') = true
    · by_cases hs0 : s' = "0"
      · subst hs0
        simp [Measurement.make, hl, Measurement.handleZero] at h
        simp [← h]
      · simp [Measurement.make, hl, Measurement.handleZero, hs0] at h
    · simp [Measurement.make, hl] at h
      rcases htk : Measurement.tokenize s' with e | toks <;> rw [htk] at h <;>
        simp at h
      rcases hp : Measurement.parseTokens (toks.map SpecItem.str) with e | v <;>
        rw [hp] at h <;> simp at h
      simp [← h]
  | list l =>
    by_cases hl : looseEqZero (MSpec.list l) = true
    · simp [Measurement.make, hl, Measurement.handleZero] at h
    · simp [Measurement.make, hl] at h
      rcases hp : Measurement.parseTokens l with e | v <;>
        rw [hp] at h <;> simp at h
      simp [← h]
  | bool b =>
    by_cases hl : looseEqZero (MSpec.bool b) = true <;>
      simp [Measurement.make, hl, Measurement.handleZero] at h
  | undef =>
    simp [Measurement.make, looseEqZero] at h

/-- A successful `worldM` coercion yields a WORLD measurement. -/

theorem worldM_frame_eq :
    ∀ (s : MSpec) (m : Measurement),
      worldM s = Except.ok m → m.referenceFrame = Frame.world := by
  intro s m h
  cases s with
  | meas m' =>
    by_cases hf : m'.referenceFrame = Frame.world
    · simp [worldM, hf] at h
      simp [← h, hf]
    · simp only [worldM, if_neg hf] at h
      exact make_frame_eq _ _ _ h
  | num q => simp only [worldM] at h; exact make_frame_eq _ _ _ h
  | str s' => simp only [worldM] at h; exact make_frame_eq _ _ _ h
  | list l => simp only [worldM] at h; exact make_frame_eq _ _ _ h
  | bool b => simp only [worldM] at h; exact make_frame_eq _ _ _ h
  | undef => simp only [worldM] at h; exact make_frame_eq _ _ _ h

/-- Claim C10: the privileged zero literal is exactly the number `0`
and the string `"0"`; every other loosely-zero spec — `"0.0"`, `"00"`,
`" 0"`, `""`, the empty list, `false` — is rejected, in both frames. -/

theorem C10_privileged_zero_literal :
    ∀ (frame : Frame),
      Measurement.make frame (MSpec.num 0) = Except.ok ⟨frame, 0⟩ ∧
      Measurement.make frame (MSpec.str "0") = Except.ok ⟨frame, 0⟩ ∧
      (∀ spec : MSpec, looseEqZero spec = true → spec ≠ MSpec.num 0 →
        spec ≠ MSpec.str "0" →
        exErr (Measurement.make frame spec) = true) ∧
      exErr (Measurement.make frame (MSpec.str "0.0")) = true ∧
      exErr (Measurement.make frame (MSpec.str "00")) = true ∧
      exErr (Measurement.make frame (MSpec.str " 0")) = true ∧
      exErr (Measurement.make frame (MSpec.str "")) = true ∧
      exErr (Measurement.make frame (MSpec.list [])) = true ∧
      exErr (Measurement.make frame (MSpec.bool false)) = true := by
  intro frame
  refine ⟨by with_unfolding_all rfl, by with_unfolding_all rfl, ?_,
    by with_unfolding_all rfl, by with_unfolding_all rfl,
    by with_unfolding_all rfl, by with_unfolding_all rfl,
    by with_unfolding_all rfl, by with_unfolding_all rfl⟩
  intro spec hz h0 hs
  cases spec with
  | num q =>
    have hq : q = 0 := by simpa [looseEqZero] using hz
    exact absurd (by rw [hq]) h0
  | str s =>
    have hs' : ¬ s = "0" := fun h => hs (by rw [h])
    simp [Measurement.make, hz, Measurement.handleZero, hs']
  | list l =>
    simp [Measurement.make, hz, Measurement.handleZero]
  | bool b =>
    have hb : b = false := by simpa [looseEqZero] using hz
    subst hb
    simp [Measurement.make, Measurement.handleZero, looseEqZero]
  | undef => simp [looseEqZero] at hz
  | meas m => simp [looseEqZero] at hz

/-- Witness for C10 at a concrete frame. -/

theorem C10_privileged_zero_literal_witness :
    Measurement.make Frame.world (MSpec.num 0) =
      Except.ok ⟨Frame.world, 0⟩ ∧
    exErr (Measurement.make Frame.world (MSpec.str "0.0")) = true ∧
    exErr (Measurement.make Frame.world (MSpec.bool false)) = true := by
  have h := C10_privileged_zero_literal Frame.world
  exact ⟨h.1,
    h.2.2.1 (MSpec.str "0.0") (by with_unfolding_all rfl)
      (by decide) (by decide),
    h.2.2.1 (MSpec.bool false) (by decide) (by decide) (by decide)⟩

/-- Claim C4: arithmetic between a WORLD and a PRINTED `Measurement`
always throws — in particular `worldM("1 m").plus(printedM("1 m"))` —
and succeeds only between measurements of identical frame. -/

theorem C4_cross_frame_arithmetic_throws :
    ∀ (a b : Measurement),
      (a.referenceFrame ≠ b.referenceFrame →
        exErr (a.plus (MSpec.meas b)) = true ∧
        exErr (a.minus (MSpec.meas b)) = true ∧
        exErr (a.times (MSpec.meas b)) = true ∧
        exErr (a.dividedBy (MSpec.meas b)) = true) ∧
      (exOk (a.plus (MSpec.meas b)) = true ↔
        a.referenceFrame = b.referenceFrame) ∧
      (exOk (a.minus (MSpec.meas b)) = true ↔
        a.referenceFrame = b.referenceFrame) ∧
      (exOk (a.dividedBy (MSpec.meas b)) = true →
        a.referenceFrame = b.referenceFrame) ∧
      worldM (MSpec.str "1 m") = Except.ok ⟨Frame.world, 1⟩ ∧
      printedM (MSpec.str "1 m") = Except.ok ⟨Frame.printed, 1⟩ ∧
      exErr (Measurement.plus ⟨Frame.world, 1⟩
        (MSpec.meas ⟨Frame.printed, 1⟩)) = true := by
  intro a b
  refine ⟨?_, ?_, ?_, ?_,
    by with_unfolding_all rfl, by with_unfolding_all rfl,
    by with_unfolding_all rfl⟩
  · intro hne
    refine ⟨?_, ?_, ?_, ?_⟩ <;>
      simp [Measurement.plus, Measurement.minus, Measurement.times,
        Measurement.dividedBy, Measurement.checkCompatible, hne]
  · constructor
    · intro hok
      by_cases hf : a.referenceFrame = b.referenceFrame
      · exact hf
      · simp [Measurement.plus, Measurement.checkCompatible, hf] at hok
    · intro hf
      simp [Measurement.plus, Measurement.checkCompatible, hf]
  · constructor
    · intro hok
      by_cases hf : a.referenceFrame = b.referenceFrame
      · exact hf
      · simp [Measurement.minus, Measurement.checkCompatible, hf] at hok
    · intro hf
      simp [Measurement.minus, Measurement.checkCompatible, hf]
  · intro hok
    by_cases hf : a.referenceFrame = b.referenceFrame
    · exact hf
    · simp [Measurement.dividedBy, Measurement.checkCompatible, hf] at hok

/-- Witness for C4 at concrete measurements. -/

theorem C4_cross_frame_arithmetic_throws_witness :
    exErr (Measurement.plus ⟨Frame.world, 1⟩
      (MSpec.meas ⟨Frame.printed, 1⟩)) = true ∧
    (exOk (Measurement.plus ⟨Frame.world, 1⟩
      (MSpec.meas ⟨Frame.world, 2⟩)) = true) := by
  have h1 := C4_cross_frame_arithmetic_throws ⟨Frame.world, 1⟩
    ⟨Frame.printed, 1⟩
  have h2 := C4_cross_frame_arithmetic_throws ⟨Frame.world, 1⟩
    ⟨Frame.world, 2⟩
  exact ⟨(h1.1 (by decide)).1, h2.2.1.mpr rfl⟩

/-- Claim C9: the `MeasurementPair` constructor coerces non-Measurement
coordinates into the WORLD frame, so a pair built from two
non-Measurement specs is WORLD-frame, and pairing a PRINTED
`Measurement` with any non-Measurement coordinate always throws (the
frame-mismatch error whenever the coordinate itself coerces). -/

theorem C9_pair_coerces_to_world :
    ∀ (k : PairKind) (x y z : MSpec) (mx my mz : Measurement)
      (m : Measurement),
      (x.isMeas = false → y.isMeas = false →
        worldM x = Except.ok mx → worldM y = Except.ok my →
        MeasurementPair.make k x y = Except.ok ⟨k, mx, my⟩ ∧
        mx.referenceFrame = Frame.world ∧
        my.referenceFrame = Frame.world) ∧
      (m.referenceFrame = Frame.printed → z.isMeas = false →
        exErr (MeasurementPair.make k (MSpec.meas m) z) = true ∧
        exErr (MeasurementPair.make k z (MSpec.meas m)) = true ∧
        (worldM z = Except.ok mz →
          MeasurementPair.make k (MSpec.meas m) z = Except.error
            "MeasurementPair.constructor: args must be same referenceFrame")) := by
  intro k x y z mx my mz m
  have coerce_nonmeas : ∀ w : MSpec, w.isMeas = false →
      coerceCoordinate w = worldM w := by
    intro w hw
    cases w <;> simp [MSpec.isMeas] at hw ⊢ <;> rfl
  constructor
  · intro hx hy hwx hwy
    have hfx := worldM_frame_eq _ _ hwx
    have hfy := worldM_frame_eq _ _ hwy
    have ex : coerceCoordinate x = Except.ok mx :=
      (coerce_nonmeas x hx).trans hwx
    have ey : coerceCoordinate y = Except.ok my :=
      (coerce_nonmeas y hy).trans hwy
    refine ⟨?_, hfx, hfy⟩
    simp [MeasurementPair.make, ex, ey, hfx, hfy]
  · intro hm hz
    have ez := coerce_nonmeas z hz
    refine ⟨?_, ?_, ?_⟩
    · rcases hwz : worldM z with e | mz'
      · simp [MeasurementPair.make, coerceCoordinate_meas, ez, hwz]
      · have hfz := worldM_frame_eq _ _ hwz
        simp [MeasurementPair.make, coerceCoordinate_meas, ez, hwz, hm, hfz]
    · rcases hwz : worldM z with e | mz'
      · simp [MeasurementPair.make, coerceCoordinate_meas, ez, hwz]
      · have hfz := worldM_frame_eq _ _ hwz
        simp [MeasurementPair.make, coerceCoordinate_meas, ez, hwz, hm, hfz]
    · intro hwz
      have hfz := worldM_frame_eq _ _ hwz
      simp [MeasurementPair.make, coerceCoordinate_meas, ez, hwz, hm, hfz]

/-- Witness for C9 at concrete inputs. -/

theorem C9_pair_coerces_to_world_witness :
    MeasurementPair.make PairKind.point (MSpec.str "1 m") (MSpec.num 0) =
      Except.ok ⟨PairKind.point, ⟨Frame.world, 1⟩, ⟨Frame.world, 0⟩⟩ ∧
    exErr (MeasurementPair.make PairKind.point
      (MSpec.meas ⟨Frame.printed, 1⟩) (MSpec.num 0)) = true := by
  have h := C9_pair_coerces_to_world PairKind.point
    (MSpec.str "1 m") (MSpec.num 0) (MSpec.num 0)
    ⟨Frame.world, 1⟩ ⟨Frame.world, 0⟩ ⟨Frame.world, 0⟩
    ⟨Frame.printed, 1⟩
  exact ⟨(h.1 (by decide) (by decide) (by with_unfolding_all rfl)
      (by with_unfolding_all rfl)).1,
    (h.2 (by decide) (by decide)).1⟩

/-- Claim C5: for same-frame pairs, `plus` succeeds exactly on
(point, vector) → POINT and (vector, vector) → VECTOR; `minus` succeeds
exactly on (point, point) → VECTOR, (point, vector) → POINT and
(vector, vector) → VECTOR; everything else (including EXTENT and
vector-plus-point) throws; allowed results are componentwise. -/

theorem C5_pair_kind_whitelist :
    ∀ (a b : MeasurementPair),
      a.x.referenceFrame = a.y.referenceFrame →
      b.x.referenceFrame = b.y.referenceFrame →
      a.x.referenceFrame = b.x.referenceFrame →
      (exOk (a.plus (PairArg.pair b)) = true ↔
        (a.type = PairKind.point ∧ b.type = PairKind.vector) ∨
        (a.type = PairKind.vector ∧ b.type = PairKind.vector)) ∧
      (exOk (a.minus (PairArg.pair b)) = true ↔
        (a.type = PairKind.point ∧ b.type = PairKind.point) ∨
        (a.type = PairKind.point ∧ b.type = PairKind.vector) ∨
        (a.type = PairKind.vector ∧ b.type = PairKind.vector)) ∧
      (a.type = PairKind.point → b.type = PairKind.vector →
        a.plus (PairArg.pair b) = Except.ok
          ⟨PairKind.point,
            ⟨a.x.referenceFrame, a.x.value + b.x.value⟩,
            ⟨a.y.referenceFrame, a.y.value + b.y.value⟩⟩) ∧
      (a.type = PairKind.vector → b.type = PairKind.vector →
        a.plus (PairArg.pair b) = Except.ok
          ⟨PairKind.vector,
            ⟨a.x.referenceFrame, a.x.value + b.x.value⟩,
            ⟨a.y.referenceFrame, a.y.value + b.y.value⟩⟩) ∧
      (a.type = PairKind.point → b.type = PairKind.point →
        a.minus (PairArg.pair b) = Except.ok
          ⟨PairKind.vector,
            ⟨a.x.referenceFrame, a.x.value - b.x.value⟩,
            ⟨a.y.referenceFrame, a.y.value - b.y.value⟩⟩) ∧
      (a.type = PairKind.point → b.type = PairKind.vector →
        a.minus (PairArg.pair b) = Except.ok
          ⟨PairKind.point,
            ⟨a.x.referenceFrame, a.x.value - b.x.value⟩,
            ⟨a.y.referenceFrame, a.y.value - b.y.value⟩⟩) ∧
      (a.type = PairKind.vector → b.type = PairKind.vector →
        a.minus (PairArg.pair b) = Except.ok
          ⟨PairKind.vector,
            ⟨a.x.referenceFrame, a.x.value - b.x.value⟩,
            ⟨a.y.referenceFrame, a.y.value - b.y.value⟩⟩) := by
  intro a b h1 h2 h3
  rcases a with ⟨ta, ax, ay⟩
  rcases b with ⟨tb, bx, byy⟩
  simp only at h1 h2 h3
  have hy1 : ay.referenceFrame = ax.referenceFrame := h1.symm
  have hbx : bx.referenceFrame = ax.referenceFrame := h3.symm
  have hby : byy.referenceFrame = ax.referenceFrame := by
    rw [← h2, hbx]
  cases ta <;> cases tb <;>
    simp [MeasurementPair.plus, MeasurementPair.minus,
      MeasurementPair.checkCompatible, plusResultType, minusResultType,
      MeasurementPair.make, MeasurementPair.referenceFrame,
      Measurement.plus, Measurement.minus, Measurement.checkCompatible,
      coerceCoordinate_meas, hy1, hbx, hby]

/-- Witness for C5 at concrete pairs. -/

theorem C5_pair_kind_whitelist_witness :
    MeasurementPair.plus
        ⟨PairKind.point, ⟨Frame.world, 1⟩, ⟨Frame.world, 2⟩⟩
        (PairArg.pair ⟨PairKind.vector, ⟨Frame.world, 3⟩, ⟨Frame.world, 4⟩⟩) =
      Except.ok ⟨PairKind.point, ⟨Frame.world, 1 + 3⟩, ⟨Frame.world, 2 + 4⟩⟩ ∧
    (exOk (MeasurementPair.plus
        ⟨PairKind.vector, ⟨Frame.world, 1⟩, ⟨Frame.world, 2⟩⟩
        (PairArg.pair ⟨PairKind.point, ⟨Frame.world, 3⟩, ⟨Frame.world, 4⟩⟩))
      = true ↔
      ((PairKind.vector = PairKind.point ∧ PairKind.point = PairKind.vector) ∨
       (PairKind.vector = PairKind.vector ∧
        PairKind.point = PairKind.vector))) := by
  have h1 := C5_pair_kind_whitelist
    ⟨PairKind.point, ⟨Frame.world, 1⟩, ⟨Frame.world, 2⟩⟩
    ⟨PairKind.vector, ⟨Frame.world, 3⟩, ⟨Frame.world, 4⟩⟩
    rfl rfl rfl
  have h2 := C5_pair_kind_whitelist
    ⟨PairKind.vector, ⟨Frame.world, 1⟩, ⟨Frame.world, 2⟩⟩
    ⟨PairKind.point, ⟨Frame.world, 3⟩, ⟨Frame.world, 4⟩⟩
    rfl rfl rfl
  exact ⟨h1.2.2.1 rfl rfl, h2.1⟩

theorem packFuel_nil {α : Type} (packer : List α → BinPackResult α)
    (fuel : Nat) : packFuel packer fuel [] = Except.ok [] := by
  cases fuel <;> rfl

theorem packFuel_cons {α : Type} (packer : List α → BinPackResult α)
    (f : Nat) (p : α) (ps : List α) :
    packFuel packer (f + 1) (p :: ps) =
      if (packer (p :: ps)).positioned.isEmpty then
        Except.error "at least one piece is too big to fit on page"
      else
        (packFuel packer f (packer (p :: ps)).unpositioned).map
          (fun rest => Page.mk (packer (p :: ps)).positioned :: rest) := rfl

/-- Claim C6: assuming the external packer partitions its input,
`Kit.pack` terminates — an iteration budget of the piece count is
enough — and each iteration either positions at least one piece,
emitting exactly one `Page` and strictly shrinking the unplaced set,
or throws (when the packer positions zero pieces). -/

theorem C6_pack_terminates :
    ∀ {α : Type} (packer : List α → BinPackResult α),
      PackerPartitions packer →
      (∀ (pieces : List α) (fuel : Nat), pieces.length ≤ fuel →
        packFuel packer fuel pieces = packFuel packer pieces.length pieces) ∧
      (∀ pieces : List α, pieces ≠ [] →
        ((packer pieces).positioned = [] ∧
          ∀ fuel : Nat, packFuel packer (fuel + 1) pieces =
            Except.error "at least one piece is too big to fit on page") ∨
        ((packer pieces).positioned ≠ [] ∧
          ((packer pieces).unpositioned).length < pieces.length ∧
          ∀ fuel : Nat, packFuel packer (fuel + 1) pieces =
            (packFuel packer fuel (packer pieces).unpositioned).map
              (fun rest => Page.mk (packer pieces).positioned :: rest))) := by
  intro α packer hpart
  have key : ∀ (bound : Nat) (pieces : List α) (fuel₁ fuel₂ : Nat),
      pieces.length ≤ bound → pieces.length ≤ fuel₁ →
      pieces.length ≤ fuel₂ →
      packFuel packer fuel₁ pieces = packFuel packer fuel₂ pieces := by
    intro bound
    induction bound with
    | zero =>
      intro pieces fuel₁ fuel₂ hb _ _
      have : pieces = [] := List.length_eq_zero.mp (Nat.le_zero.mp hb)
      subst this
      rw [packFuel_nil, packFuel_nil]
    | succ n ih =>
      intro pieces fuel₁ fuel₂ hb hf1 hf2
      cases pieces with
      | nil => rw [packFuel_nil, packFuel_nil]
      | cons p ps =>
        cases fuel₁ with
        | zero => simp at hf1
        | succ f₁ =>
          cases fuel₂ with
          | zero => simp at hf2
          | succ f₂ =>
            rw [packFuel_cons, packFuel_cons]
            by_cases hb0 : ((packer (p :: ps)).positioned).isEmpty = true
            · simp [hb0]
            · simp only [hb0, if_false, Bool.false_eq_true]
              have hpos : (packer (p :: ps)).positioned ≠ [] := by
                simpa [List.isEmpty_iff] using hb0
              have hlen := hpart (p :: ps)
              have hshrink : ((packer (p :: ps)).unpositioned).length ≤
                  ps.length := by
                have h1 : 1 ≤ ((packer (p :: ps)).positioned).length :=
                  List.length_pos.mpr hpos
                simp only [List.length_cons] at hlen
                omega
              rw [ih (packer (p :: ps)).unpositioned f₁ f₂
                (le_trans hshrink (by simpa [Nat.succ_le_succ_iff] using hb))
                (le_trans hshrink (by simpa [Nat.succ_le_succ_iff] using hf1))
                (le_trans hshrink (by simpa [Nat.succ_le_succ_iff] using hf2))]
  refine ⟨fun pieces fuel h =>
    key pieces.length pieces fuel pieces.length le_rfl h le_rfl, ?_⟩
  intro pieces hne
  rcases pieces with _ | ⟨p, ps⟩
  · exact absurd rfl hne
  by_cases hb0 : (packer (p :: ps)).positioned = []
  · left
    exact ⟨hb0, fun fuel => by rw [packFuel_cons]; simp [hb0]⟩
  · right
    have hlen := hpart (p :: ps)
    have h1 : 1 ≤ ((packer (p :: ps)).positioned).length :=
      List.length_pos.mpr hb0
    refine ⟨hb0, ?_, fun fuel => by
      rw [packFuel_cons]
      simp [List.isEmpty_iff, hb0]⟩
    simp only [List.length_cons] at hlen ⊢
    omega

/-- Witness for C6 at a concrete packer and piece list. -/

theorem C6_pack_terminates_witness :
    packFuel (fun l : List Nat => ⟨l.map (fun a => ((0 : ℚ), (0 : ℚ), a)), []⟩)
        5 [1, 2, 3] =
      packFuel (fun l : List Nat => ⟨l.map (fun a => ((0 : ℚ), (0 : ℚ), a)), []⟩)
        3 [1, 2, 3] := by
  exact (C6_pack_terminates
    (fun l : List Nat => ⟨l.map (fun a => ((0 : ℚ), (0 : ℚ), a)), []⟩)
    (fun l => by simp)).1 [1, 2, 3] 5 (by decide)

theorem headI_cons (c : Char) (l : List Char) : (c :: l).headI = c := rfl

theorem headI_cons_append (c : Char) (t X : List Char) :
    ((c :: t) ++ X).headI = c := rfl

/-- A list with a non-whitespace head and a non-whitespace last
character is unchanged by trimming. -/

theorem trimWs_no_ws_ends (l : List Char)
    (hhead : l = [] ∨ jsWs l.headI = false)
    (hlast : l.reverse = [] ∨ jsWs l.reverse.headI = false) :
    trimWs l = l := by
  unfold trimWs
  rw [dropWhile_head_not jsWs l hhead,
    dropWhile_head_not jsWs l.reverse hlast, List.reverse_reverse]

/-- Claim C2: parsing sums (number, unit) pairs to one meter value —
`"3 m 46 cm"` gives 3.46, `"1 ft"` and `"12 in"` both give 0.3048 —
for either reference frame and independent of the whitespace between
tokens. -/

theorem C2_parse_sums_pairs :
    ∀ (frame : Frame),
      Measurement.make frame (MSpec.str "3 m 46 cm") =
        Except.ok ⟨frame, 3.46⟩ ∧
      Measurement.make frame (MSpec.str "1 ft") =
        Except.ok ⟨frame, 0.3048⟩ ∧
      Measurement.make frame (MSpec.str "12 in") =
        Except.ok ⟨frame, 0.3048⟩ ∧
      (∀ w2 w3 w4 : List Char,
        (∀ c ∈ w2, jsWs c = true) → (∀ c ∈ w3, jsWs c = true) →
        (∀ c ∈ w4, jsWs c = true) →
        Measurement.make frame (MSpec.str (String.mk
          (['3'] ++ (w2 ++ (['m'] ++ (w3 ++ (['4', '6'] ++
            (w4 ++ ['c', 'm'])))))))) = Except.ok ⟨frame, 3.46⟩) := by
  intro frame
  refine ⟨by with_unfolding_all rfl, by with_unfolding_all rfl,
    by with_unfolding_all rfl, ?_⟩
  intro w2 w3 w4 h2 h3 h4
  have hA0 : tokenizeAll ['c', 'm'] = Except.ok ["cm"] := by
    rw [show (['c', 'm'] : List Char) = ['c', 'm'] ++ []
      from (List.append_nil _).symm]
    rw [tokenizeAll_run_unit ['c', 'm'] [] (by simp) (by decide) (by decide)
      (Or.inl rfl)]
    rfl
  have hA1 : tokenizeAll (w4 ++ ['c', 'm']) = Except.ok ["cm"] := by
    rw [tokenizeAll_ws w4 ['c', 'm'] h4 (Or.inr (by decide)), hA0]
  have hA2 : tokenizeAll (['4', '6'] ++ (w4 ++ ['c', 'm'])) =
      Except.ok ["46", "cm"] := by
    rw [tokenizeAll_run_num ['4', '6'] _ (by simp) (by decide)
      (ws_append_head_not isNumChar w4 ['c', 'm'] h4
        (fun c h => jsWs_not_numChar h) (Or.inr (by decide))), hA1]
    rfl
  have hA3 : tokenizeAll (w3 ++ (['4', '6'] ++ (w4 ++ ['c', 'm']))) =
      Except.ok ["46", "cm"] := by
    rw [tokenizeAll_ws w3 _ h3
      (Or.inr (by rw [headI_cons_append]; decide)), hA2]
  have hA4 : tokenizeAll (['m'] ++ (w3 ++ (['4', '6'] ++
      (w4 ++ ['c', 'm'])))) = Except.ok ["m", "46", "cm"] := by
    rw [tokenizeAll_run_unit ['m'] _ (by simp) (by decide) (by decide)
      (ws_append_head_not isUnitChar w3 _ h3
        (fun c h => jsWs_not_unitChar h)
        (Or.inr (by rw [headI_cons_append]; decide))), hA3]
    rfl
  have hA5 : tokenizeAll (w2 ++ (['m'] ++ (w3 ++ (['4', '6'] ++
      (w4 ++ ['c', 'm']))))) = Except.ok ["m", "46", "cm"] := by
    rw [tokenizeAll_ws w2 _ h2
      (Or.inr (by rw [headI_cons_append]; decide)), hA4]
  have hA6 : tokenizeAll (['3'] ++ (w2 ++ (['m'] ++ (w3 ++ (['4', '6'] ++
      (w4 ++ ['c', 'm'])))))) = Except.ok ["3", "m", "46", "cm"] := by
    rw [tokenizeAll_run_num ['3'] _ (by simp) (by decide)
      (ws_append_head_not isNumChar w2 _ h2
        (fun c h => jsWs_not_numChar h)
        (Or.inr (by rw [headI_cons_append]; decide))), hA5]
    rfl
  have hrev : (['3'] ++ (w2 ++ (['m'] ++ (w3 ++ (['4', '6'] ++
      (w4 ++ ['c', 'm'])))))).reverse =
      'm' :: ('c' :: (w4.reverse ++ ('6' :: ('4' :: (w3.reverse ++
        ('m' :: (w2.reverse ++ ['3']))))))) := by
    simp
  have htrim : trimWs (['3'] ++ (w2 ++ (['m'] ++ (w3 ++ (['4', '6'] ++
      (w4 ++ ['c', 'm'])))))) =
      ['3'] ++ (w2 ++ (['m'] ++ (w3 ++ (['4', '6'] ++
        (w4 ++ ['c', 'm']))))) := by
    apply trimWs_no_ws_ends
    · exact Or.inr (by rw [headI_cons_append]; decide)
    · rw [hrev]
      exact Or.inr (by rw [headI_cons]; decide)
  have hR_take : (w2 ++ (['m'] ++ (w3 ++ (['4', '6'] ++
      (w4 ++ ['c', 'm']))))).takeWhile Char.isDigit = [] :=
    takeWhile_head_not _ _
      (ws_append_head_not Char.isDigit w2 _ h2
        (fun c h => jsWs_not_digit h)
        (Or.inr (by rw [headI_cons_append]; decide)))
  have hR_drop : (w2 ++ (['m'] ++ (w3 ++ (['4', '6'] ++
      (w4 ++ ['c', 'm']))))).dropWhile Char.isDigit =
      w2 ++ (['m'] ++ (w3 ++ (['4', '6'] ++ (w4 ++ ['c', 'm'])))) :=
    dropWhile_head_not _ _
      (ws_append_head_not Char.isDigit w2 _ h2
        (fun c h => jsWs_not_digit h)
        (Or.inr (by rw [headI_cons_append]; decide)))
  have hnum : jsToNumber (String.mk (['3'] ++ (w2 ++ (['m'] ++ (w3 ++
      (['4', '6'] ++ (w4 ++ ['c', 'm']))))))) = none := by
    show (let t := trimWs (['3'] ++ (w2 ++ (['m'] ++ (w3 ++ (['4', '6'] ++
        (w4 ++ ['c', 'm']))))));
      if t = [] then some 0 else jsSignedDecimal t) = none
    rw [htrim]
    simp only [List.cons_append, List.nil_append]
    rw [if_neg (by simp)]
    show jsDecimal ('3' :: (w2 ++ ('m' :: (w3 ++ ('4' :: '6' ::
      (w4 ++ ['c', 'm'])))))) = none
    unfold jsDecimal
    simp only [List.takeWhile_cons, List.dropWhile_cons,
      show Char.isDigit '3' = true from rfl, if_true]
    simp only [List.cons_append, List.nil_append] at hR_take hR_drop
    rw [hR_take, hR_drop]
    rcases hw2 : w2 with _ | ⟨c, w2'⟩
    · simp [jsExponent]
    · have hc : jsWs c = true := by
        rw [hw2] at h2
        exact h2 c (by simp)
      have hspec := jsWs_not_special hc
      simp only [List.cons_append]
      rw [if_neg (by simp [hspec.1])]
      rw [if_neg (by simp)]
      simp only [jsExponent]
      rw [if_neg (by simp [hspec.2.1, hspec.2.2.1])]
  have hloose : looseEqZero (MSpec.str (String.mk (['3'] ++ (w2 ++ (['m'] ++
      (w3 ++ (['4', '6'] ++ (w4 ++ ['c', 'm'])))))))) = false := by
    simp only [List.cons_append, List.nil_append] at hnum
    simp [looseEqZero, hnum]
  have htok : Measurement.tokenize (String.mk (['3'] ++ (w2 ++ (['m'] ++
      (w3 ++ (['4', '6'] ++ (w4 ++ ['c', 'm']))))))) =
      Except.ok ["3", "m", "46", "cm"] := hA6
  simp only [Measurement.make, hloose, Bool.false_eq_true, if_false]
  rw [htok]
  simp only [bindE_ok, List.map]
  rw [show Measurement.parseTokens [SpecItem.str "3", SpecItem.str "m",
    SpecItem.str "46", SpecItem.str "cm"] = Except.ok (3.46 : ℚ)
    from by with_unfolding_all rfl]
  rfl

/-- Witness for C2 at a concrete frame and concrete whitespace. -/

theorem C2_parse_sums_pairs_witness :
    Measurement.make Frame.world (MSpec.str (String.mk
      (['3'] ++ ([' '] ++ (['m'] ++ ([] ++ (['4', '6'] ++
        ([' ', ' '] ++ ['c', 'm'])))))))) =
      Except.ok ⟨Frame.world, 3.46⟩ :=
  (C2_parse_sums_pairs Frame.world).2.2.2 [' '] [] [' ', ' ']
    (by decide) (by decide) (by decide)

/-- A successful scan implies every input character belongs to one of
the three token grammars. -/

theorem tokenizeFuel_ok_good :
    ∀ (fuel : Nat) (l : List Char) (toks : List String),
      tokenizeFuel fuel l = Except.ok toks →
      ∀ c ∈ l, (isNumChar c || isUnitChar c || jsWs c) = true := by
  intro fuel
  induction fuel with
  | zero =>
    intro l toks h c hc
    cases l with
    | nil => simp at hc
    | cons d ds => simp [tokenizeFuel] at h
  | succ f ih =>
    intro l toks h c hc
    cases l with
    | nil => simp at hc
    | cons d ds =>
      rw [tokenizeFuel_cons] at h
      by_cases hn : isNumChar d = true
      · simp only [hn, if_true] at h
        rcases hrec : tokenizeFuel f (ds.dropWhile isNumChar) with e | r <;>
          rw [hrec] at h
        · simp at h
        · rcases List.mem_cons.mp hc with rfl | hc'
          · simp [hn]
          · rw [← List.takeWhile_append_dropWhile isNumChar ds] at hc'
            rcases List.mem_append.mp hc' with h1 | h1
            · simp [List.mem_takeWhile_imp h1]
            · exact ih _ _ hrec c h1
      · by_cases hu : isUnitChar d = true
        · simp only [hn, hu, Bool.false_eq_true, if_false, if_true] at h
          rcases hrec : tokenizeFuel f (ds.dropWhile isUnitChar) with e | r <;>
            rw [hrec] at h
          · simp at h
          · rcases List.mem_cons.mp hc with rfl | hc'
            · simp [hu]
            · rw [← List.takeWhile_append_dropWhile isUnitChar ds] at hc'
              rcases List.mem_append.mp hc' with h1 | h1
              · simp [List.mem_takeWhile_imp h1]
              · exact ih _ _ hrec c h1
        · by_cases hw : jsWs d = true
          · simp only [hn, hu, hw, Bool.false_eq_true, if_false, if_true] at h
            rcases List.mem_cons.mp hc with rfl | hc'
            · simp [hw]
            · rw [← List.takeWhile_append_dropWhile jsWs ds] at hc'
              rcases List.mem_append.mp hc' with h1 | h1
              · simp [List.mem_takeWhile_imp h1]
              · exact ih _ _ h c h1
          · simp [hn, hu, hw] at h

/-- A successful parse loop implies every odd-position token passed
the unit-token check. -/

theorem parseLoop_ok_units :
    ∀ (toks : List SpecItem) (acc v : ℚ),
      parseLoop acc toks = Except.ok v →
      ∀ i u, toks.get? i = some u → i % 2 = 1 →
        exOk (parseUnitToken u) = true := by
  suffices H : ∀ (n : Nat) (toks : List SpecItem), toks.length ≤ n →
      ∀ acc v, parseLoop acc toks = Except.ok v →
      ∀ i u, toks.get? i = some u → i % 2 = 1 →
        exOk (parseUnitToken u) = true by
    exact fun toks acc v h => H toks.length toks le_rfl acc v h
  intro n
  induction n with
  | zero =>
    intro toks hlen acc v h i u hget hodd
    have : toks = [] := List.length_eq_zero.mp (Nat.le_zero.mp hlen)
    subst this
    simp at hget
  | succ n ih =>
    intro toks hlen acc v h i u hget hodd
    rcases toks with _ | ⟨t1, _ | ⟨t2, rest⟩⟩
    · simp at hget
    · simp [parseLoop] at h
    · simp only [parseLoop] at h
      rcases h1 : parseNumToken t1 with e | num <;> rw [h1] at h
      · simp at h
      rcases h2 : parseUnitToken t2 with e | factor <;> rw [h2] at h
      · simp at h
      simp only [bindE_ok] at h
      match i, hodd with
      | 1, _ =>
        simp only [List.get?] at hget
        cases hget
        simp [h2]
      | (k + 2), hodd =>
        have hget' : rest.get? k = some u := by simpa [List.get?] using hget
        have hk : k % 2 = 1 := by omega
        have hlen' : rest.length ≤ n := by
          simp only [List.length_cons] at hlen
          omega
        exact ih rest hlen' _ _ h k u hget' hk

/-- Counterexample for C7 as frozen: the string spec `"0"` has a token
stream with an odd token count, yet the constructor succeeds (the
privileged zero literal bypasses parsing). -/

theorem C7_parse_error_conditions_counterexample :
    Measurement.tokenize "0" = Except.ok ["0"] ∧
    (["0"] : List String).length % 2 = 1 ∧
    Measurement.make Frame.world (MSpec.str "0") =
      Except.ok ⟨Frame.world, 0⟩ := by
  refine ⟨by with_unfolding_all rfl, by decide, by with_unfolding_all rfl⟩

/-- Claim C7 (amended: except for the privileged zero literal `"0"`,
which bypasses parsing): constructing a `Measurement` from a string or
list spec throws whenever the token stream has an odd token count,
whenever a character of the string matches none of the number / unit /
whitespace grammars, or whenever a unit token is recognized by neither
lookup path. -/

theorem C7_parse_error_conditions :
    ∀ (frame : Frame) (s : String) (l : List SpecItem),
      ((∃ c ∈ s.data, (isNumChar c || isUnitChar c || jsWs c) = false) →
        exErr (Measurement.make frame (MSpec.str s)) = true) ∧
      (s ≠ "0" →
        ∀ toks, Measurement.tokenize s = Except.ok toks →
          (toks.length % 2 = 1 →
            exErr (Measurement.make frame (MSpec.str s)) = true) ∧
          (∀ i u, toks.get? i = some u → i % 2 = 1 →
            exErr (ConversionFactors.unit u) = true →
            exErr (Measurement.make frame (MSpec.str s)) = true)) ∧
      (l.length % 2 = 1 →
        exErr (Measurement.make frame (MSpec.list l)) = true) ∧
      (∀ i u, l.get? i = some u → i % 2 = 1 →
        exErr (parseUnitToken u) = true →
        exErr (Measurement.make frame (MSpec.list l)) = true) := by
  intro frame s l
  have hstr_loose : ∀ s' : String, looseEqZero (MSpec.str s') = true →
      s' ≠ "0" → exErr (Measurement.make frame (MSpec.str s')) = true := by
    intro s' hl hs0
    simp [Measurement.make, hl, Measurement.handleZero, hs0]
  have hlist_loose : looseEqZero (MSpec.list l) = true →
      exErr (Measurement.make frame (MSpec.list l)) = true := by
    intro hl
    simp [Measurement.make, hl, Measurement.handleZero]
  refine ⟨?_, ?_, ?_, ?_⟩
  · rintro ⟨c, hcmem, hcbad⟩
    by_cases hl : looseEqZero (MSpec.str s) = true
    · by_cases hs0 : s = "0"
      · subst hs0
        rw [show ("0" : String).data = ['0'] from rfl] at hcmem
        simp at hcmem
        subst hcmem
        exact absurd hcbad (by decide)
      · exact hstr_loose s hl hs0
    · rcases htk : Measurement.tokenize s with e | toks
      · simp [Measurement.make, hl, htk]
      · exact absurd (tokenizeFuel_ok_good _ _ _ htk c hcmem)
          (by simp [hcbad])
  · intro hs0 toks htk
    by_cases hl : looseEqZero (MSpec.str s) = true
    · exact ⟨fun _ => hstr_loose s hl hs0,
        fun _ _ _ _ _ => hstr_loose s hl hs0⟩
    · constructor
      · intro hodd
        have hp : Measurement.parseTokens (toks.map SpecItem.str) =
            Except.error "Measurement.constructor: odd number of tokens" := by
          unfold Measurement.parseTokens
          rw [if_pos (by simp [hodd])]
        simp [Measurement.make, hl, htk, hp]
      · intro i u hget hodd huerr
        rcases hp : Measurement.parseTokens (toks.map SpecItem.str)
          with e | v
        · simp [Measurement.make, hl, htk, hp]
        · exfalso
          unfold Measurement.parseTokens at hp
          split at hp
          · simp at hp
          · have hu := parseLoop_ok_units _ _ _ hp i (SpecItem.str u)
              (by
                rw [List.get?_eq_getElem?] at hget ⊢
                rw [List.getElem?_map, hget]
                rfl) hodd
            by_cases hreg : (u.data ≠ [] && u.data.all isUnitChar) = true
            · rw [show parseUnitToken (SpecItem.str u) =
                  ConversionFactors.unit u from by
                simp only [parseUnitToken]; rw [if_pos hreg]] at hu
              rcases hcu : ConversionFactors.unit u with e' | v' <;>
                rw [hcu] at hu <;> rw [hcu] at huerr <;> simp at hu huerr
            · rw [show parseUnitToken (SpecItem.str u) = Except.error
                  "Measurement.constructor: invalid unit token" from by
                simp only [parseUnitToken]; rw [if_neg hreg]] at hu
              simp at hu
  · intro hodd
    by_cases hl : looseEqZero (MSpec.list l) = true
    · exact hlist_loose hl
    · have hp : Measurement.parseTokens l =
          Except.error "Measurement.constructor: odd number of tokens" := by
        unfold Measurement.parseTokens
        rw [if_pos (by simp [hodd])]
      simp [Measurement.make, hl, hp]
  · intro i u hget hodd huerr
    by_cases hl : looseEqZero (MSpec.list l) = true
    · exact hlist_loose hl
    · rcases hp : Measurement.parseTokens l with e | v
      · simp [Measurement.make, hl, hp]
      · exfalso
        unfold Measurement.parseTokens at hp
        split at hp
        · simp at hp
        · have hu := parseLoop_ok_units _ _ _ hp i u hget hodd
          rcases hpu : parseUnitToken u with e' | v' <;>
            rw [hpu] at hu huerr <;> simp at hu huerr

/-- Witness for C7 (amended) at concrete inputs. -/

theorem C7_parse_error_conditions_witness :
    exErr (Measurement.make Frame.world (MSpec.str "@")) = true ∧
    exErr (Measurement.make Frame.world (MSpec.str "5")) = true ∧
    exErr (Measurement.make Frame.world (MSpec.str "3 zz")) = true ∧
    exErr (Measurement.make Frame.world
      (MSpec.list [SpecItem.num 3])) = true ∧
    exErr (Measurement.make Frame.world
      (MSpec.list [SpecItem.num 3, SpecItem.str "zz"])) = true := by
  refine ⟨?_, ?_, ?_, ?_, ?_⟩
  · exact (C7_parse_error_conditions Frame.world "@" []).1
      ⟨'@', by decide, by decide⟩
  · exact ((C7_parse_error_conditions Frame.world "5" []).2.1
      (by decide) ["5"] (by with_unfolding_all rfl)).1 (by decide)
  · exact ((C7_parse_error_conditions Frame.world "3 zz" []).2.1
      (by decide) ["3", "zz"] (by with_unfolding_all rfl)).2
      1 "zz" (by decide) (by decide) (by with_unfolding_all rfl)
  · exact (C7_parse_error_conditions Frame.world ""
      [SpecItem.num 3]).2.2.1 (by decide)
  · exact (C7_parse_error_conditions Frame.world ""
      [SpecItem.num 3, SpecItem.str "zz"]).2.2.2
      1 (SpecItem.str "zz") (by decide) (by decide)
      (by with_unfolding_all rfl)

/-- Witness for C8 at concrete inputs. -/

theorem C8_rotate90_period_four_witness :
    AffineTransformation.applyToPoint ⟨0, -1, 0, 1, 0, 0, 0, 0, 1⟩
      ⟨PairKind.point, ⟨Frame.world, 3⟩, ⟨Frame.world, 5⟩⟩ =
      ⟨PairKind.point, ⟨Frame.printed, -5⟩, ⟨Frame.printed, 3⟩⟩ := by
  exact (C8_rotate90_period_four ⟨0, -1, 0, 1, 0, 0, 0, 0, 1⟩
    (by with_unfolding_all rfl)).1

end PSF
